import Mathlib

/-!
Shallow embedding of `biocypher/_get.py`: the `Resource` descriptor, the
`Downloader` cache manager (`download`, `_download_or_cache`, `_retrieve`,
`_get_files`, `_load_cache_dict`, `_get_cache_record`, `_update_cache_record`)
and the module-level helper `is_nested`.

Modelling conventions:
* Python `datetime` instants are integers (microseconds); `timedelta(days=L)`
  is `L * usPerDay`.
* The external collaborators (pooch's retrieval engine, the ftplib listing
  client) are parameters collected in an `Env` record, together with the value
  `datetime.now()` returns during the call.
* Side effects are made explicit: the mutation of the caller's `Resource` and
  of `Downloader.cache_dict` is state passing (the updated values are returned),
  the write of `cache.json` is the `disk` field of `Downloader`, and the
  observable actions of a call (the `logger.info("Downloading resource ...")`
  line and each `pooch.retrieve` invocation) are returned as a trace of
  `Event`s.
* Python exceptions are `Except PyErr`; falling off the end of a function
  returns the Python value `None` (`PyVal.none`).
* Python strings are Lean `String`s; `str.endswith` / `str.startswith` /
  `str.find` / `str.rfind` and slicing are modelled on the character list
  `String.data` with Python's semantics (negative `find` results, negative
  slice indices counted from the end and clamped at zero).
-/

/-- Microseconds per day: `timedelta(days=L)` is `L * usPerDay` on integer
microsecond timestamps. -/
def usPerDay : Int := 86400000000

/-- Python `suffix.endswith`-style check: `s.endswith(p)` is `p` being a suffix
of the character sequence of `s`. -/
def pyEndswith (s p : String) : Bool :=
  List.isSuffixOf p.data s.data

/-- Python `s.startswith(p)`: `p` is a prefix of the character sequence of `s`. -/
def pyStartswith (s p : String) : Bool :=
  List.isPrefixOf p.data s.data

/-- Python `s.find(c)` for a single character: index of the first occurrence,
`-1` if absent. -/
def pyFind (l : List Char) (c : Char) : Int :=
  if c ∈ l then (List.indexOf c l : Int) else -1

/-- Python `s.rfind(c)` for a single character: index of the last occurrence,
`-1` if absent. -/
def pyRfind (l : List Char) (c : Char) : Int :=
  if c ∈ l then ((l.length - 1 - List.indexOf c l.reverse : Nat) : Int) else -1

/-- Python slice `l[i:]` (negative `i` counts from the end, clamped at 0). -/
def pySliceFrom (l : List Char) (i : Int) : List Char :=
  if i < 0 then l.drop (l.length - (-i).toNat) else l.drop i.toNat

/-- Python slice `l[:i]` (negative `i` counts from the end, clamped at 0). -/
def pySliceTo (l : List Char) (i : Int) : List Char :=
  if i < 0 then l.take (l.length - (-i).toNat) else l.take i.toNat

/-- The recurring source expression `url[url.rfind("/") + 1 :]`: everything
after the last slash (the whole string if there is no slash). -/
def afterLastSlash (s : String) : String :=
  String.mk (pySliceFrom s.data (pyRfind s.data '/' + 1))

/-- Model of `os.path.join` as used by `_download_or_cache` (both arguments are
relative, slash-free joins). -/
def pathJoin (a b : String) : String :=
  a ++ "/" ++ b

/-- A Python value that is either a `str` or a `list` of `str`, the type of
`Resource.url_s` and of the `url` field of a cache record. -/
inductive StrOrList where
  | str : String → StrOrList
  | list : List String → StrOrList
deriving DecidableEq

/-- Python exceptions that the embedded code can raise, plus `valueError`,
the shape an explicit configuration error would have. -/
inductive PyErr where
  | unboundLocalError : String → PyErr
  | attributeError : String → PyErr
  | typeError : String → PyErr
  | valueError : String → PyErr
  | jsonDecodeError : String → PyErr
deriving DecidableEq

/-- A Python value as returned by `_download_or_cache` / collected by
`download`: `None`, a `str` path, or a (possibly nested) `list`. -/
inductive PyVal where
  | none : PyVal
  | str : String → PyVal
  | list : List PyVal → PyVal

/-- The pooch processor `_retrieve` selects from the filename suffix:
`pooch.Unzip()`, `pooch.Untar()`, `pooch.Decompress()` or no processor. -/
inductive Processor where
  | unzip : Processor
  | untar : Processor
  | decompress : Processor
  | verbatim : Processor
deriving DecidableEq

/-- Observable actions of a `_download_or_cache` call: the
`logger.info(f"Downloading resource {name}.")` line and each `pooch.retrieve`
invocation (with the url, local filename, target path and processor passed). -/
inductive Event where
  | logDownloading : String → Event
  | retrieveCall : String → String → String → Processor → Event
deriving DecidableEq

/-- The `Resource` class: name, URL or list of URLs, lifetime in days, and
whether the URL denotes a directory to be expanded. -/
structure Resource where
  name : String
  url_s : StrOrList
  lifetime : Nat
  is_dir : Bool
deriving DecidableEq

/-- One value of the JSON cache store, keyed by resource name:
`{"url": ..., "date_downloaded": ..., "lifetime": ...}`. -/
structure CacheRecord where
  url : StrOrList
  date_downloaded : Int
  lifetime : Nat
deriving DecidableEq

/-- The `Downloader` state: the cache directory path, the in-memory
`cache_dict`, and the parsed content of the `cache.json` file on disk. -/
structure Downloader where
  cache_dir : String
  cache_dict : List (String × CacheRecord)
  disk : List (String × CacheRecord)
deriving DecidableEq

/-- The external collaborators of a call, and the instant `datetime.now()`
yields during it: pooch's transfer engine (url, fname, path, processor ↦
resulting path value) and ftplib's `nlst` listing (host, directory ↦
filenames). -/
structure Env where
  now : Int
  pooch_retrieve : String → String → String → Processor → PyVal
  ftp_nlst : String → String → List String

/-- Python dict assignment `d[k] = v`: replace the value at an existing key in
place, otherwise append the new binding. -/
def dict_assign (dict : List (String × CacheRecord)) (k : String) (v : CacheRecord) :
    List (String × CacheRecord) :=
  if dict.any fun p => p.1 == k then
    dict.map fun p => if p.1 == k then (k, v) else p
  else
    dict ++ [(k, v)]

/-- The module-level `is_nested(lst)`: some element is a Python `list`. -/
def is_nested (lst : List PyVal) : Bool :=
  lst.any fun item =>
    match item with
    | .list _ => true
    | _ => false

/-- Iterating a Python value, as the flattening list comprehension in
`download` does: a `list` yields its elements, a `str` yields its characters
as one-character strings, `None` raises `TypeError`. -/
def pyIter : PyVal → Except PyErr (List PyVal)
  | .none => .error (.typeError "NoneType object is not iterable")
  | .str s => .ok (s.data.map fun c => .str (String.mk [c]))
  | .list l => .ok l

/-- The comprehension `[path for sublist in paths for path in sublist]`:
iterate every collected entry and concatenate the results. -/
def flattenOnce : List PyVal → Except PyErr (List PyVal)
  | [] => .ok []
  | p :: ps =>
    match pyIter p with
    | .error e => .error e
    | .ok l =>
      match flattenOnce ps with
      | .error e => .error e
      | .ok l2 => .ok (l ++ l2)

/-- The method `_get_cache_record`: `self.cache_dict.get(resource.name, {})`,
with the empty-dict default represented as `Option.none` (both are falsy at
the single `if cache_record:` use site). -/
def get_cache_record (d : Downloader) (resource : Resource) : Option CacheRecord :=
  List.lookup resource.name d.cache_dict

/-- The freshness test at the top of `_download_or_cache`: with a cache record,
`datetime.fromisoformat(record["date_downloaded"]) + timedelta(days=resource.lifetime)
< datetime.now()`; without one, expired. -/
def is_expired (env : Env) (d : Downloader) (resource : Resource) : Bool :=
  match get_cache_record d resource with
  | some cr => decide (cr.date_downloaded + (resource.lifetime : Int) * usPerDay < env.now)
  | Option.none => true

/-- The method `_update_cache_record`: build a fresh record from the resource's
current `url_s`, `datetime.now()` and `lifetime`, assign it under the
resource's name, and dump the whole `cache_dict` to `cache.json` (the `disk`
field). -/
def update_cache_record (env : Env) (d : Downloader) (resource : Resource) : Downloader :=
  let cache_record : CacheRecord :=
    { url := resource.url_s, date_downloaded := env.now, lifetime := resource.lifetime }
  let cache_dict := dict_assign d.cache_dict resource.name cache_record
  { d with cache_dict := cache_dict, disk := cache_dict }

/-- The filename-suffix dispatch of `_retrieve`: the four `pooch.retrieve`
branches differ only in the processor passed, selected by
`fname.endswith(".zip")` / `".tar.gz"` / `".gz"` in that order. -/
def selectProcessor (fname : String) : Processor :=
  if pyEndswith fname ".zip" then .unzip
  else if pyEndswith fname ".tar.gz" then .untar
  else if pyEndswith fname ".gz" then .decompress
  else .verbatim

/-- The method `_retrieve`: call pooch's engine with the suffix-selected
processor; the returned event records the invocation. -/
def retrieve (env : Env) (url fname path : String) : PyVal × Event :=
  (env.pooch_retrieve url fname path (selectProcessor fname),
   .retrieveCall url fname path (selectProcessor fname))

/-- The method `_get_files`: for an `ftp://` URL, strip the protocol, split
off the host at the first slash, drop the slash before the directory, and ask
the listing collaborator for the filenames. For any other scheme the `if`
block is skipped and the final `return files` raises `UnboundLocalError`; if
`url_s` is a `list`, the `.startswith` attribute access raises
`AttributeError`. -/
def get_files (env : Env) (resource : Resource) : Except PyErr (List String) :=
  match resource.url_s with
  | .str u =>
    if pyStartswith u "ftp://" then
      let url0 := pySliceFrom u.data 6
      let url := pySliceTo url0 (pyFind url0 '/')
      let dir := pySliceFrom u.data (7 + (url.length : Int))
      .ok (env.ftp_nlst (String.mk url) (String.mk dir))
    else
      .error (.unboundLocalError "files")
  | .list _ => .error (.attributeError "'list' object has no attribute 'startswith'")

/-- The body of `_download_or_cache` for a non-directory resource: re-check
freshness, and if expired or the cache is bypassed, log, fetch each URL (for a
`list`, under the local filename `resource.name + "_" + url[url.rfind("/")+1:]`;
for a single `str`, under `url[url.rfind("/")+1:]`) into
`os.path.join(cache_dir, resource.name)`, update the cache record and return
the path(s); otherwise fall off the end, returning `None`. The directory
branch of the source recurses into `_download_or_cache` after clearing
`is_dir`, so the recursive call lands exactly here. -/
def download_or_cache_nondir (env : Env) (d : Downloader) (resource : Resource)
    (cache : Bool) : Except PyErr (PyVal × Downloader × Resource × List Event) :=
  if is_expired env d resource || !cache then
    match resource.url_s with
    | .list urls =>
      let results := urls.map fun url =>
        retrieve env url (resource.name ++ "_" ++ afterLastSlash url)
          (pathJoin d.cache_dir resource.name)
      .ok (.list (results.map Prod.fst),
           update_cache_record env d resource,
           resource,
           .logDownloading resource.name :: results.map Prod.snd)
    | .str url =>
      let r := retrieve env url (afterLastSlash url) (pathJoin d.cache_dir resource.name)
      .ok (r.1, update_cache_record env d resource, resource,
           [.logDownloading resource.name, r.2])
  else
    .ok (.none, d, resource, [])

/-- The method `_download_or_cache`. The source recurses once for directory
resources (after `_get_files`, it rewrites `url_s` to the per-file URL list,
clears `is_dir`, and calls itself); since the recursive call sees
`is_dir = False`, that single unfolding is `download_or_cache_nondir`, keeping
the definition structurally recursive. The outer invocation then calls
`_update_cache_record` again on the already-updated state, exactly as the
source does after the recursion returns. -/
def download_or_cache (env : Env) (d : Downloader) (resource : Resource)
    (cache : Bool) : Except PyErr (PyVal × Downloader × Resource × List Event) :=
  if resource.is_dir then
    if is_expired env d resource || !cache then
      match get_files env resource with
      | .error e => .error e
      | .ok files =>
        match resource.url_s with
        | .str base =>
          let resource2 : Resource :=
            { resource with
                url_s := .list (files.map fun file => base ++ "/" ++ file),
                is_dir := false }
          match download_or_cache_nondir env d resource2 cache with
          | .error e => .error e
          | .ok (paths, d2, r2, tr2) =>
            .ok (paths, update_cache_record env d2 r2, r2,
                 .logDownloading resource.name :: tr2)
        | .list _ => .error (.typeError "can only concatenate list (not str) to list")
    else
      .ok (.none, d, resource, [])
  else
    download_or_cache_nondir env d resource cache

/-- The loop at the top of `download`: call `_download_or_cache` on each
resource in order, collecting one result per resource and threading the
mutated downloader state and resource objects. -/
def downloadLoop (env : Env) : Downloader → List Resource →
    Except PyErr (List PyVal × Downloader × List Resource)
  | d, [] => .ok ([], d, [])
  | d, r :: rs =>
    match download_or_cache env d r true with
    | .error e => .error e
    | .ok (p, d1, r1, _) =>
      match downloadLoop env d1 rs with
      | .error e => .error e
      | .ok (ps, d2, rs1) => .ok (p :: ps, d2, r1 :: rs1)

/-- The method `download`: collect one result per resource, then flatten one
level when `is_nested` reports a nested list. -/
def download (env : Env) (d : Downloader) (resources : List Resource) :
    Except PyErr (List PyVal × Downloader × List Resource) :=
  match downloadLoop env d resources with
  | .error e => .error e
  | .ok (paths, d1, rs1) =>
    if is_nested paths then
      match flattenOnce paths with
      | .error e => .error e
      | .ok flat => .ok (flat, d1, rs1)
    else
      .ok (paths, d1, rs1)

/-- The method `_load_cache_dict`, parameterised by the JSON parser: if the
cache file is absent it is created holding `{}` and that content is loaded;
if it is present its content is parsed, and a parse failure propagates as
`json.JSONDecodeError`. The creation of a missing cache directory has no
further observable effect here. -/
def load_cache_dict (parse : String → Option (List (String × CacheRecord)))
    (cache_file_content : Option String) :
    Except PyErr (List (String × CacheRecord)) :=
  let content :=
    match cache_file_content with
    | some s => s
    | Option.none => "{}"
  match parse content with
  | some dict => .ok dict
  | Option.none => .error (.jsonDecodeError content)

/-- Modelled from the spec: the error shape claim C8 expects from `_get_files`
on a non-`ftp://` directory resource — an explicit "unsupported scheme"
configuration error. In the embedded error taxonomy a deliberate configuration
error is a `valueError`; an `unboundLocalError` is an accidental runtime
error, not an explicit one. -/
def isExplicitSchemeError : Except PyErr (List String) → Bool
  | .error (.valueError _) => true
  | _ => false

/-- Projection: the trace of events of a successful `_download_or_cache` call. -/
def resultEvents : Except PyErr (PyVal × Downloader × Resource × List Event) →
    Option (List Event)
  | .ok t => some t.2.2.2
  | .error _ => Option.none

/-- Projection: the path list of a successful `download` call. -/
def resultList : Except PyErr (List PyVal × Downloader × List Resource) →
    Option (List PyVal)
  | .ok t => some t.1
  | .error _ => Option.none

/-! Helper lemmas about the string primitives. -/

/-- Collaborator stub: every transfer yields the path `"P"`, the listing of
`host` is two files (one plain, one zip), any other host is empty. -/
def envStub (now : Int) : Env :=
  { now := now,
    pooch_retrieve := fun _ _ _ _ => .str "P",
    ftp_nlst := fun h _ => if h == "host" then ["a.txt", "b.zip"] else [] }

/-- An empty cache manager over the directory `"cache"`. -/
def dEmpty : Downloader :=
  { cache_dir := "cache", cache_dict := [], disk := [] }

/-- Cache record for claim C1: downloaded at time 0 with lifetime 2 days. -/
def recC1 : CacheRecord :=
  { url := .str "http://h/f.txt", date_downloaded := 0, lifetime := 2 }

/-- Downloader state for claim C1: `"res"` was downloaded at time 0. -/
def dC1 : Downloader :=
  { cache_dir := "cache", cache_dict := [("res", recC1)], disk := [("res", recC1)] }

/-- Resource for claim C1: single file, lifetime 2 days. -/
def rC1 : Resource :=
  { name := "res", url_s := .str "http://h/f.txt", lifetime := 2, is_dir := false }

/-- Cache record for claim C3: downloaded at time 0 with lifetime 0 ("permanent"). -/
def recC3 : CacheRecord :=
  { url := .str "http://h/f.txt", date_downloaded := 0, lifetime := 0 }

/-- Downloader state for claim C3. -/
def dC3 : Downloader :=
  { cache_dir := "cache", cache_dict := [("res", recC3)], disk := [("res", recC3)] }

/-- Resource for claim C3: lifetime 0, documented as "permanent". -/
def rC3 : Resource :=
  { name := "res", url_s := .str "http://h/f.txt", lifetime := 0, is_dir := false }

/-- A parser that rejects every input, standing in for `json.load` on
unparseable content. -/
def parseRejecting : String → Option (List (String × CacheRecord)) :=
  fun _ => Option.none

/-- Directory resource with a non-ftp scheme, for claim C8. -/
def rC8 : Resource :=
  { name := "res", url_s := .str "http://host/dir", lifetime := 0, is_dir := true }

/-- Cache record for the C2 witness: downloaded at time 0 with lifetime 1 day. -/
def recC2 : CacheRecord :=
  { url := .str "http://h/a.txt", date_downloaded := 0, lifetime := 1 }

/-- Downloader state for the C2 witness. -/
def dC2 : Downloader :=
  { cache_dir := "cache", cache_dict := [("res", recC2)], disk := [("res", recC2)] }

/-- Resource for the C2 witness. -/
def rC2 : Resource :=
  { name := "res", url_s := .str "http://h/a.txt", lifetime := 1, is_dir := false }

/-- Resource for the C4 witness: a single file never seen before. -/
def rC4 : Resource :=
  { name := "res", url_s := .str "http://h/f.txt", lifetime := 5, is_dir := false }

/-- Directory resource for claims C7 and C10. -/
def rC7 : Resource :=
  { name := "res", url_s := .str "ftp://host/pub", lifetime := 0, is_dir := true }

/-- The expanded form of `rC7` after directory expansion. -/
def r2C7 : Resource :=
  { name := "res", url_s := .list ["ftp://host/pub/a.txt", "ftp://host/pub/b.zip"],
    lifetime := 0, is_dir := false }

/-- Collaborator stub for claim C5: resource A yields the scalar path
`"ab"`, any other fetch yields the list `["c", "d"]`. -/
def envC5 : Env :=
  { now := 0,
    pooch_retrieve := fun _ fname _ _ =>
      if fname == "ab" then .str "ab" else .list [.str "c", .str "d"],
    ftp_nlst := fun _ _ => [] }

/-- Single-file resource for claim C5 whose fetch yields a scalar path. -/
def rC5a : Resource :=
  { name := "A", url_s := .str "http://h/ab", lifetime := 0, is_dir := false }

/-- Resource for claim C5 whose fetch yields a list of paths. -/
def rC5b : Resource :=
  { name := "B", url_s := .str "http://h/xy", lifetime := 0, is_dir := false }

/-- A nonempty suffix determines the last character of the string. -/
theorem pyEndswith_getLast (f p : String) (hp : p.data ≠ [])
    (h : pyEndswith f p = true) : f.data.getLast? = p.data.getLast? := by
  unfold pyEndswith at h
  rw [List.isSuffixOf_iff_suffix] at h
  obtain ⟨t, ht⟩ := h
  rw [← ht, List.getLast?_append]
  cases hq : p.data.getLast? with
  | none => exact absurd (List.getLast?_eq_none_iff.mp hq) hp
  | some a => rfl

/-- A name ending in `".tar.gz"` does not end in `".zip"`. -/
theorem targz_not_zip (f : String) (h : pyEndswith f ".tar.gz" = true) :
    pyEndswith f ".zip" = false := by
  cases hz : pyEndswith f ".zip" with
  | false => rfl
  | true =>
    have h1 := pyEndswith_getLast f ".tar.gz" (by decide) h
    have h2 := pyEndswith_getLast f ".zip" (by decide) hz
    rw [show (".tar.gz" : String).data.getLast? = some 'z' from rfl] at h1
    rw [show (".zip" : String).data.getLast? = some 'p' from rfl] at h2
    rw [h1] at h2
    exact absurd h2 (by decide)

/-- A name ending in `".zip"` does not end in `".gz"`. -/
theorem zip_not_gz (f : String) (h : pyEndswith f ".zip" = true) :
    pyEndswith f ".gz" = false := by
  cases hg : pyEndswith f ".gz" with
  | false => rfl
  | true =>
    have h1 := pyEndswith_getLast f ".zip" (by decide) h
    have h2 := pyEndswith_getLast f ".gz" (by decide) hg
    rw [show (".zip" : String).data.getLast? = some 'p' from rfl] at h1
    rw [show (".gz" : String).data.getLast? = some 'z' from rfl] at h2
    rw [h1] at h2
    exact absurd h2 (by decide)

/-! Concrete inputs used by the evidence and witness theorems below. -/

/-- C1: for a resource downloaded at time T with lifetime L days, re-invoking
`_download_or_cache` strictly before T + L performs no fetch — but, contrary
to the claim (and to the method's own docstring "Returns: str or list: the
path or paths"), it does not return the previously recorded path(s): the
fetch branch is skipped and the call falls off the end, returning `None` with
an empty event trace and the state untouched. Concretely: downloaded at 0
with lifetime 2 days, re-invoked at 1 day. -/
theorem c1_cache_hit_yields_none :
    (envStub usPerDay).now < recC1.date_downloaded + (rC1.lifetime : Int) * usPerDay
    ∧ download_or_cache (envStub usPerDay) dC1 rC1 true = .ok (.none, dC1, rC1, []) :=
  ⟨by decide, rfl⟩

/-- C3: the claim (and the `Resource` docstring "If 0, the resource is
considered to be permanent") says a lifetime-0 resource never expires once
cached; the arithmetic `date_downloaded + timedelta(days=0) < now` instead
makes it expire at the very next instant. Concretely: cached at time 0,
re-invoked one microsecond later, the code classifies the resource as expired
and re-fetches it (the trace shows the download log line and a `pooch.retrieve`
call). -/
theorem c3_lifetime_zero_expires_immediately :
    recC3.date_downloaded < (envStub 1).now
    ∧ rC3.lifetime = 0
    ∧ is_expired (envStub 1) dC3 rC3 = true
    ∧ resultEvents (download_or_cache (envStub 1) dC3 rC3 true) =
        some [.logDownloading "res",
              .retrieveCall "http://h/f.txt" "f.txt" "cache/res" .verbatim] :=
  ⟨by decide, rfl, rfl, rfl⟩

/-- C6: the retrieval adapter is selected purely by filename suffix — `.zip`
unpacks as zip, `.tar.gz` unpacks as tar, `.gz` not covered by the former two
single-stream decompresses, anything else is fetched verbatim with no
processor. -/
theorem c6_processor_selected_by_suffix (fname : String) :
    (selectProcessor fname = .unzip ↔ pyEndswith fname ".zip" = true)
    ∧ (selectProcessor fname = .untar ↔ pyEndswith fname ".tar.gz" = true)
    ∧ (selectProcessor fname = .decompress ↔
        (pyEndswith fname ".gz" = true ∧ pyEndswith fname ".tar.gz" = false
          ∧ pyEndswith fname ".zip" = false))
    ∧ (selectProcessor fname = .verbatim ↔
        (pyEndswith fname ".zip" = false ∧ pyEndswith fname ".tar.gz" = false
          ∧ pyEndswith fname ".gz" = false)) := by
  by_cases hz : pyEndswith fname ".zip" = true
  · have ht : pyEndswith fname ".tar.gz" = false := by
      cases h : pyEndswith fname ".tar.gz" with
      | false => rfl
      | true => rw [targz_not_zip fname h] at hz; exact absurd hz (by decide)
    have hg : pyEndswith fname ".gz" = false := zip_not_gz fname hz
    simp [selectProcessor, hz, ht, hg]
  · have hz' : pyEndswith fname ".zip" = false := by simpa using hz
    by_cases ht : pyEndswith fname ".tar.gz" = true
    · simp [selectProcessor, hz', ht]
    · have ht' : pyEndswith fname ".tar.gz" = false := by simpa using ht
      by_cases hg : pyEndswith fname ".gz" = true
      · simp [selectProcessor, hz', ht', hg]
      · have hg' : pyEndswith fname ".gz" = false := by simpa using hg
        simp [selectProcessor, hz', ht', hg']

/-- C9: if the cache file exists but its content does not parse as JSON,
`_load_cache_dict` (called by the `Downloader` constructor) propagates the
parse error instead of resetting the store to an empty state. -/
theorem c9_corrupt_cache_file_raises
    (parse : String → Option (List (String × CacheRecord))) (s : String)
    (h : parse s = Option.none) :
    load_cache_dict parse (some s) = .error (.jsonDecodeError s) := by
  simp [load_cache_dict, h]

/-- Witness for C9 at a concrete corrupt cache file. -/
theorem c9_witness :
    parseRejecting "not json" = Option.none
    ∧ load_cache_dict parseRejecting (some "not json") =
        .error (.jsonDecodeError "not json") :=
  ⟨rfl, c9_corrupt_cache_file_raises parseRejecting "not json" rfl⟩

/-- Counterexample to C8 as stated: on an `http://` directory resource,
`_get_files` does fail, but with `UnboundLocalError` on the variable `files`
(the `if` block was skipped and the final `return files` reads an unassigned
local) — not with an explicit "unsupported scheme" configuration error. -/
theorem c8_counterexample :
    get_files (envStub 1) rC8 = .error (.unboundLocalError "files")
    ∧ isExplicitSchemeError (get_files (envStub 1) rC8) = false :=
  ⟨rfl, rfl⟩

/-- C8 as amended: for every directory resource whose single URL does not
start with `ftp://`, `_get_files` raises `UnboundLocalError` on `files` — so
it does fail rather than silently returning an empty result, but with an
accidental unbound-variable error, not an explicit unsupported-scheme
configuration error. -/
theorem c8_unbound_local_not_config_error (env : Env) (resource : Resource)
    (base : String) (hurl : resource.url_s = .str base)
    (hscheme : pyStartswith base "ftp://" = false) :
    get_files env resource = .error (.unboundLocalError "files") := by
  simp [get_files, hurl, hscheme]

/-- Witness for the amended C8 at the concrete `http://` directory resource. -/
theorem c8_witness :
    rC8.url_s = .str "http://host/dir"
    ∧ pyStartswith "http://host/dir" "ftp://" = false
    ∧ get_files (envStub 1) rC8 = .error (.unboundLocalError "files") :=
  ⟨rfl, rfl, c8_unbound_local_not_config_error (envStub 1) rC8 "http://host/dir" rfl rfl⟩

/-! Helper lemmas about the fetch branch of `_download_or_cache`. -/

/-- When neither expired nor bypassed, `_download_or_cache` skips the fetch
branch entirely: no events, no state change, `None` returned. -/
theorem nofetch_result (env : Env) (d : Downloader) (resource : Resource)
    (cache : Bool) (hc : (is_expired env d resource || !cache) = false) :
    download_or_cache env d resource cache = .ok (.none, d, resource, []) := by
  unfold download_or_cache download_or_cache_nondir
  cases hdir : resource.is_dir <;> simp [hc]

/-- On the fetch branch, a successful `_download_or_cache` call always begins
its event trace with the download log line. -/
theorem nondir_fetch_shape (env : Env) (d : Downloader) (resource : Resource)
    (cache : Bool) (hc : (is_expired env d resource || !cache) = true) :
    ∃ paths rest, download_or_cache_nondir env d resource cache =
      .ok (paths, update_cache_record env d resource, resource,
           Event.logDownloading resource.name :: rest) := by
  unfold download_or_cache_nondir
  rw [if_pos hc]
  cases hu : resource.url_s with
  | list urls => exact ⟨_, _, rfl⟩
  | str url => exact ⟨_, _, rfl⟩

/-- On the fetch branch, a successful `_download_or_cache` call always begins
its event trace with the download log line. -/
theorem fetch_trace_head (env : Env) (d : Downloader) (resource : Resource)
    (cache : Bool) (paths : PyVal) (d' : Downloader) (r' : Resource)
    (tr : List Event) (hc : (is_expired env d resource || !cache) = true)
    (hok : download_or_cache env d resource cache = .ok (paths, d', r', tr)) :
    ∃ rest, tr = Event.logDownloading resource.name :: rest := by
  unfold download_or_cache at hok
  by_cases hdir : resource.is_dir = true
  · rw [if_pos hdir, if_pos hc] at hok
    cases hgf : get_files env resource with
    | error e => rw [hgf] at hok; exact Except.noConfusion hok
    | ok files =>
      rw [hgf] at hok
      cases hu : resource.url_s with
      | list urls => rw [hu] at hok; exact Except.noConfusion hok
      | str base =>
        rw [hu] at hok
        dsimp only at hok
        obtain ⟨p2, rest, hnd⟩ := nondir_fetch_shape env d
          { resource with
              url_s := .list (files.map fun file => base ++ "/" ++ file),
              is_dir := false } cache hc
        rw [hnd] at hok
        injection hok with h
        injection h with h1 h2
        injection h2 with h3 h4
        injection h4 with h5 h6
        exact ⟨_, h6.symm⟩
  · rw [if_neg hdir] at hok
    obtain ⟨p2, rest, hnd⟩ := nondir_fetch_shape env d resource cache hc
    rw [hnd] at hok
    injection hok with h
    injection h with h1 h2
    injection h2 with h3 h4
    injection h4 with h5 h6
    exact ⟨_, h6.symm⟩

/-- C2: with a cache record present, the resource is classified expired
exactly when `date_downloaded + lifetime` days lies before now, and (on a
call that completes) the fetch branch — observable by its log line — is taken
exactly when the resource is expired or the caller bypasses the cache. -/
theorem c2_expiry_and_fetch_decision
    (env : Env) (d : Downloader) (resource : Resource) (cr : CacheRecord)
    (cache : Bool) (paths : PyVal) (d' : Downloader) (r' : Resource)
    (tr : List Event)
    (hrec : get_cache_record d resource = some cr)
    (hok : download_or_cache env d resource cache = .ok (paths, d', r', tr)) :
    (is_expired env d resource = true ↔
      cr.date_downloaded + (resource.lifetime : Int) * usPerDay < env.now)
    ∧ (Event.logDownloading resource.name ∈ tr ↔
        (is_expired env d resource = true ∨ cache = false)) := by
  constructor
  · unfold is_expired
    rw [hrec]
    simp
  · by_cases hc : (is_expired env d resource || !cache) = true
    · obtain ⟨rest, htr⟩ := fetch_trace_head env d resource cache paths d' r' tr hc hok
      subst htr
      refine iff_of_true (List.mem_cons_self _ _) ?_
      rcases Bool.or_eq_true_iff.mp hc with h | h
      · exact Or.inl h
      · exact Or.inr (by simpa using h)
    · have hc' : (is_expired env d resource || !cache) = false := by
        simpa using hc
      have hres := nofetch_result env d resource cache hc'
      rw [hres] at hok
      simp only [Except.ok.injEq, Prod.mk.injEq] at hok
      obtain ⟨-, -, -, h4⟩ := hok
      rw [← h4]
      refine iff_of_false (by simp) ?_
      rcases Bool.or_eq_false_iff.mp hc' with ⟨h1, h2⟩
      rintro (h | h)
      · rw [h1] at h; exact absurd h (by decide)
      · rw [h] at h2; exact absurd h2 (by decide)

/-- Witness for C2 at a cached-but-expired resource two days after download. -/
theorem c2_witness :
    get_cache_record dC2 rC2 = some recC2
    ∧ ((is_expired (envStub (2 * usPerDay)) dC2 rC2 = true ↔
          recC2.date_downloaded + (rC2.lifetime : Int) * usPerDay <
            (envStub (2 * usPerDay)).now)
        ∧ (Event.logDownloading rC2.name ∈
              [Event.logDownloading "res",
               Event.retrieveCall "http://h/a.txt" "a.txt" "cache/res" .verbatim] ↔
            (is_expired (envStub (2 * usPerDay)) dC2 rC2 = true ∨ true = false))) :=
  ⟨rfl,
   c2_expiry_and_fetch_decision (envStub (2 * usPerDay)) dC2 rC2 recC2 true
     (.str "P") (update_cache_record (envStub (2 * usPerDay)) dC2 rC2) rC2
     [Event.logDownloading "res",
      Event.retrieveCall "http://h/a.txt" "a.txt" "cache/res" .verbatim]
     rfl rfl⟩

/-! Helper lemmas about `dict_assign` and `List.lookup`. -/

/-- An absent key occurs on no entry of the dictionary. -/
theorem lookup_none_any (l : List (String × CacheRecord)) (k : String)
    (h : List.lookup k l = Option.none) : (l.any fun p => p.1 == k) = false := by
  induction l with
  | nil => rfl
  | cons p ps ih =>
    obtain ⟨pk, pv⟩ := p
    rw [List.lookup_cons] at h
    cases hbeq : k == pk with
    | true => rw [hbeq] at h; exact absurd h (by simp)
    | false =>
      rw [hbeq] at h
      have h' : List.lookup k ps = Option.none := h
      have hne : (pk == k) = false :=
        beq_eq_false_iff_ne.mpr fun he => by
          rw [he] at hbeq
          simp at hbeq
      simp [List.any_cons, hne, ih h']

/-- An absent key is filtered to nothing. -/
theorem lookup_none_filter (l : List (String × CacheRecord)) (k : String)
    (h : List.lookup k l = Option.none) : (l.filter fun p => p.1 == k) = [] := by
  induction l with
  | nil => rfl
  | cons p ps ih =>
    obtain ⟨pk, pv⟩ := p
    rw [List.lookup_cons] at h
    cases hbeq : k == pk with
    | true => rw [hbeq] at h; exact absurd h (by simp)
    | false =>
      rw [hbeq] at h
      have h' : List.lookup k ps = Option.none := h
      have hne : (pk == k) = false :=
        beq_eq_false_iff_ne.mpr fun he => by
          rw [he] at hbeq
          simp at hbeq
      simp [List.filter_cons, hne, ih h']

/-- Looking up a key just appended behind entries that do not hold it. -/
theorem lookup_append_self (l : List (String × CacheRecord)) (k : String)
    (v : CacheRecord) (h : List.lookup k l = Option.none) :
    List.lookup k (l ++ [(k, v)]) = some v := by
  induction l with
  | nil => simp [List.lookup_cons]
  | cons p ps ih =>
    obtain ⟨pk, pv⟩ := p
    rw [List.lookup_cons] at h
    cases hbeq : k == pk with
    | true => rw [hbeq] at h; exact absurd h (by simp)
    | false =>
      rw [hbeq] at h
      have h' : List.lookup k ps = Option.none := h
      rw [List.cons_append, List.lookup_cons, hbeq]
      exact ih h'

/-- Assigning an absent key appends the binding. -/
theorem dict_assign_new (l : List (String × CacheRecord)) (k : String)
    (v : CacheRecord) (h : List.lookup k l = Option.none) :
    dict_assign l k v = l ++ [(k, v)] := by
  unfold dict_assign
  rw [if_neg (by rw [lookup_none_any l k h]; exact Bool.false_ne_true)]

/-- Re-assigning the same binding after a fresh append changes nothing. -/
theorem dict_assign_twice (l : List (String × CacheRecord)) (k : String)
    (v : CacheRecord) (h : List.lookup k l = Option.none) :
    dict_assign (dict_assign l k v) k v = dict_assign l k v := by
  rw [dict_assign_new l k v h]
  unfold dict_assign
  have hany : ((l ++ [(k, v)]).any fun p => p.1 == k) = true := by
    simp [List.any_append]
  rw [if_pos hany, List.map_append]
  have hmap : (l.map fun p => if p.1 == k then (k, v) else p) = l := by
    have hall := lookup_none_any l k h
    rw [List.any_eq_false] at hall
    calc (l.map fun p => if p.1 == k then (k, v) else p)
        = l.map id := by
          refine List.map_congr_left fun p hp => ?_
          rw [if_neg fun hcon => hall p hp hcon]
          rfl
      _ = l := List.map_id l
  rw [hmap]
  simp

/-- The state after `_update_cache_record` on a previously unseen resource:
exactly one record under the resource's name, holding its current `url_s`,
the current instant and its lifetime, with the store persisted. -/
theorem update_record_props (env : Env) (d : Downloader) (r : Resource)
    (h : List.lookup r.name d.cache_dict = Option.none) :
    (((update_cache_record env d r).cache_dict.filter
        fun p => p.1 == r.name).length = 1)
    ∧ List.lookup r.name (update_cache_record env d r).cache_dict =
        some { url := r.url_s, date_downloaded := env.now, lifetime := r.lifetime }
    ∧ (update_cache_record env d r).disk = (update_cache_record env d r).cache_dict := by
  refine ⟨?_, ?_, rfl⟩
  · show ((dict_assign d.cache_dict r.name _).filter fun p => p.1 == r.name).length = 1
    rw [dict_assign_new _ _ _ h, List.filter_append, lookup_none_filter _ _ h]
    simp
  · show List.lookup r.name (dict_assign d.cache_dict r.name _) = _
    rw [dict_assign_new _ _ _ h, lookup_append_self _ _ _ h]

/-- Updating the record of a previously unseen resource twice in a row (as the
directory branch does) equals updating it once. -/
theorem update_record_twice (env : Env) (d : Downloader) (r : Resource)
    (h : List.lookup r.name d.cache_dict = Option.none) :
    update_cache_record env (update_cache_record env d r) r =
      update_cache_record env d r := by
  unfold update_cache_record
  dsimp only
  rw [dict_assign_twice _ _ _ h]

/-- C4: a resource with no cache record is always fetched (the download log
line is in the trace), and afterwards exactly one cache record keyed by the
resource's name exists, holding the resource's current URL value (`r'.url_s`,
the object's value at update time), the download timestamp and the lifetime,
with the whole store persisted to disk. -/
theorem c4_first_download_creates_record
    (env : Env) (d : Downloader) (resource : Resource) (paths : PyVal)
    (d' : Downloader) (r' : Resource) (tr : List Event)
    (hrec : get_cache_record d resource = Option.none)
    (hok : download_or_cache env d resource true = .ok (paths, d', r', tr)) :
    Event.logDownloading resource.name ∈ tr
    ∧ ((d'.cache_dict.filter fun p => p.1 == resource.name).length = 1)
    ∧ List.lookup resource.name d'.cache_dict =
        some { url := r'.url_s, date_downloaded := env.now,
               lifetime := resource.lifetime }
    ∧ d'.disk = d'.cache_dict := by
  have hlk : List.lookup resource.name d.cache_dict = Option.none := hrec
  have hexp : is_expired env d resource = true := by
    unfold is_expired
    rw [hrec]
  have hc : (is_expired env d resource || !true) = true := by rw [hexp]; rfl
  have hmem : Event.logDownloading resource.name ∈ tr := by
    obtain ⟨rest, htr⟩ := fetch_trace_head env d resource true paths d' r' tr hc hok
    rw [htr]
    exact List.mem_cons_self _ _
  refine ⟨hmem, ?_⟩
  unfold download_or_cache at hok
  by_cases hdir : resource.is_dir = true
  · rw [if_pos hdir, if_pos hc] at hok
    cases hgf : get_files env resource with
    | error e => rw [hgf] at hok; exact Except.noConfusion hok
    | ok files =>
      rw [hgf] at hok
      cases hu : resource.url_s with
      | list urls => rw [hu] at hok; exact Except.noConfusion hok
      | str base =>
        rw [hu] at hok
        dsimp only at hok
        obtain ⟨p2, rest2, hnd⟩ := nondir_fetch_shape env d
          { resource with
              url_s := .list (files.map fun file => base ++ "/" ++ file),
              is_dir := false } true hc
        rw [hnd] at hok
        injection hok with h
        injection h with h1 h2
        injection h2 with h3 h4
        injection h4 with h5 h6
        subst h3
        subst h5
        rw [update_record_twice env d
          { resource with
              url_s := .list (files.map fun file => base ++ "/" ++ file),
              is_dir := false } hlk]
        exact update_record_props env d
          { resource with
              url_s := .list (files.map fun file => base ++ "/" ++ file),
              is_dir := false } hlk
  · rw [if_neg hdir] at hok
    obtain ⟨p2, rest2, hnd⟩ := nondir_fetch_shape env d resource true hc
    rw [hnd] at hok
    injection hok with h
    injection h with h1 h2
    injection h2 with h3 h4
    injection h4 with h5 h6
    subst h3
    subst h5
    exact update_record_props env d resource hlk

/-- Witness for C4 on an empty cache. -/
theorem c4_witness :
    get_cache_record dEmpty rC4 = Option.none
    ∧ (Event.logDownloading rC4.name ∈
         [Event.logDownloading "res",
          Event.retrieveCall "http://h/f.txt" "f.txt" "cache/res" .verbatim]
       ∧ (((update_cache_record (envStub 7) dEmpty rC4).cache_dict.filter
             fun p => p.1 == rC4.name).length = 1)
       ∧ List.lookup rC4.name (update_cache_record (envStub 7) dEmpty rC4).cache_dict =
           some { url := rC4.url_s, date_downloaded := (envStub 7).now,
                  lifetime := rC4.lifetime }
       ∧ (update_cache_record (envStub 7) dEmpty rC4).disk =
           (update_cache_record (envStub 7) dEmpty rC4).cache_dict) :=
  ⟨rfl,
   c4_first_download_creates_record (envStub 7) dEmpty rC4 (.str "P")
     (update_cache_record (envStub 7) dEmpty rC4) rC4
     [Event.logDownloading "res",
      Event.retrieveCall "http://h/f.txt" "f.txt" "cache/res" .verbatim]
     rfl rfl⟩

/-- The local-filename derivation `url[url.rfind("/") + 1 :]` applied to
`base + "/" + file` yields `file` whenever the listed filename contains no
slash. -/
theorem afterLastSlash_concat (b f : String) (hf : ('/' : Char) ∉ f.data) :
    afterLastSlash (b ++ "/" ++ f) = f := by
  unfold afterLastSlash pyRfind pySliceFrom
  have hdata : (b ++ "/" ++ f).data = (b.data ++ ['/']) ++ f.data := by
    rw [String.data_append, String.data_append]
  rw [hdata]
  have hmem : ('/' : Char) ∈ (b.data ++ ['/']) ++ f.data := by simp
  rw [if_pos hmem]
  have hrev : ((b.data ++ ['/']) ++ f.data).reverse =
      f.data.reverse ++ ('/' :: b.data.reverse) := by
    rw [List.reverse_append, List.reverse_append]
    simp
  rw [hrev]
  have hnm : ('/' : Char) ∉ f.data.reverse := by simpa using hf
  rw [List.indexOf_append_of_not_mem hnm, List.indexOf_cons_self]
  have hlen : ((b.data ++ ['/']) ++ f.data).length = b.data.length + 1 + f.data.length := by
    simp
    omega
  rw [hlen]
  have harith : (b.data.length + 1 + f.data.length - 1 - (f.data.reverse.length + 0) : Nat)
      = b.data.length := by
    simp
  rw [harith]
  have hneg : ¬ ((b.data.length : Int) + 1 < 0) := by omega
  rw [if_neg hneg]
  have htn : ((b.data.length : Int) + 1).toNat = b.data.length + 1 := by omega
  rw [htn]
  rw [List.drop_left' (by simp : ((b.data ++ ['/']) : List Char).length = b.data.length + 1)]

/-- Exact result of the fetch branch of `_download_or_cache` on a list-typed
resource: one `pooch.retrieve` call per URL under the local filename
`name + "_" + url[url.rfind("/")+1:]` into the resource's cache subdirectory,
then the cache-record update. -/
theorem nondir_list_result (env : Env) (d : Downloader) (r : Resource)
    (urls : List String) (hu : r.url_s = .list urls)
    (hc : (is_expired env d r || !true) = true) :
    download_or_cache_nondir env d r true =
      .ok (.list (urls.map fun url =>
             (retrieve env url (r.name ++ "_" ++ afterLastSlash url)
               (pathJoin d.cache_dir r.name)).1),
           update_cache_record env d r, r,
           Event.logDownloading r.name ::
             urls.map fun url =>
               (retrieve env url (r.name ++ "_" ++ afterLastSlash url)
                 (pathJoin d.cache_dir r.name)).2) := by
  unfold download_or_cache_nondir
  rw [if_pos hc, hu]
  dsimp only
  rw [List.map_map, List.map_map]
  rfl

/-- Exact result of `_download_or_cache` on an expired directory resource:
the resource is rewritten to the list of `base/file` URLs with `is_dir`
cleared, the recursion fetches that list, and the record is updated twice
(once in the recursive call, once after it returns). -/
theorem dir_fetch_result (env : Env) (d : Downloader) (resource : Resource)
    (base : String) (files : List String) (r2 : Resource)
    (hdir : resource.is_dir = true)
    (hurl : resource.url_s = .str base)
    (hexp : is_expired env d resource = true)
    (hfiles : get_files env resource = .ok files)
    (hr2 : r2 = { resource with
        url_s := .list (files.map fun file => base ++ "/" ++ file),
        is_dir := false }) :
    download_or_cache env d resource true =
      .ok (.list ((files.map fun file => base ++ "/" ++ file).map fun url =>
             (retrieve env url (resource.name ++ "_" ++ afterLastSlash url)
               (pathJoin d.cache_dir resource.name)).1),
           update_cache_record env (update_cache_record env d r2) r2, r2,
           Event.logDownloading resource.name :: Event.logDownloading resource.name ::
             (files.map fun file => base ++ "/" ++ file).map fun url =>
               (retrieve env url (resource.name ++ "_" ++ afterLastSlash url)
                 (pathJoin d.cache_dir resource.name)).2) := by
  have hc : (is_expired env d resource || !true) = true := by rw [hexp]; rfl
  subst hr2
  unfold download_or_cache
  rw [if_pos hdir, if_pos hc, hfiles, hurl]
  dsimp only
  rw [nondir_list_result env d
    { resource with
        url_s := .list (files.map fun file => base ++ "/" ++ file),
        is_dir := false }
    (files.map fun file => base ++ "/" ++ file) rfl hc]

/-- C7: a directory resource with an ftp base URL, once fetched, is rewritten
so that `url_s` is the sequence `base/file` for exactly the filenames the
listing collaborator returned, each fetched under the local filename
`resourceName_filename` (visible in the `retrieveCall` events); the returned
resource has `is_dir = false` and a list-typed `url_s`, and the result shape
shows the expansion happened exactly once (the fetched URLs are `base/file`,
not further expanded). Filenames are assumed slash-free, as an ftp `NLST`
listing returns bare names. -/
theorem c7_directory_expansion
    (env : Env) (d : Downloader) (resource : Resource) (base : String)
    (files : List String) (r2 : Resource)
    (hdir : resource.is_dir = true)
    (hurl : resource.url_s = .str base)
    (hexp : is_expired env d resource = true)
    (hfiles : get_files env resource = .ok files)
    (hnoslash : ∀ f ∈ files, ('/' : Char) ∉ f.data)
    (hr2 : r2 = { resource with
        url_s := .list (files.map fun file => base ++ "/" ++ file),
        is_dir := false }) :
    download_or_cache env d resource true =
      .ok (.list (files.map fun file =>
             (retrieve env (base ++ "/" ++ file)
               (resource.name ++ "_" ++ file)
               (pathJoin d.cache_dir resource.name)).1),
           update_cache_record env (update_cache_record env d r2) r2,
           r2,
           Event.logDownloading resource.name :: Event.logDownloading resource.name ::
             files.map fun file =>
               (retrieve env (base ++ "/" ++ file)
                 (resource.name ++ "_" ++ file)
                 (pathJoin d.cache_dir resource.name)).2) := by
  rw [dir_fetch_result env d resource base files r2 hdir hurl hexp hfiles hr2]
  simp only [List.map_map, Except.ok.injEq, Prod.mk.injEq, List.cons.injEq]
  refine ⟨?_, trivial, trivial, trivial, trivial, ?_⟩
  · exact congrArg PyVal.list (List.map_congr_left fun f hf => by
      show (retrieve env (base ++ "/" ++ f)
        (resource.name ++ "_" ++ afterLastSlash (base ++ "/" ++ f))
        (pathJoin d.cache_dir resource.name)).1 = _
      rw [afterLastSlash_concat base f (hnoslash f hf)])
  · exact List.map_congr_left fun f hf => by
      show (retrieve env (base ++ "/" ++ f)
        (resource.name ++ "_" ++ afterLastSlash (base ++ "/" ++ f))
        (pathJoin d.cache_dir resource.name)).2 = _
      rw [afterLastSlash_concat base f (hnoslash f hf)]

/-- Witness for C7 at a concrete two-file ftp directory. -/
theorem c7_witness :
    rC7.is_dir = true
    ∧ rC7.url_s = .str "ftp://host/pub"
    ∧ is_expired (envStub 1) dEmpty rC7 = true
    ∧ get_files (envStub 1) rC7 = .ok ["a.txt", "b.zip"]
    ∧ (∀ f ∈ ["a.txt", "b.zip"], ('/' : Char) ∉ f.data)
    ∧ r2C7 = { rC7 with
        url_s := .list (["a.txt", "b.zip"].map fun file => "ftp://host/pub" ++ "/" ++ file),
        is_dir := false }
    ∧ download_or_cache (envStub 1) dEmpty rC7 true =
        .ok (.list (["a.txt", "b.zip"].map fun file =>
               (retrieve (envStub 1) ("ftp://host/pub" ++ "/" ++ file)
                 (rC7.name ++ "_" ++ file)
                 (pathJoin dEmpty.cache_dir rC7.name)).1),
             update_cache_record (envStub 1)
               (update_cache_record (envStub 1) dEmpty r2C7) r2C7,
             r2C7,
             Event.logDownloading rC7.name :: Event.logDownloading rC7.name ::
               ["a.txt", "b.zip"].map fun file =>
                 (retrieve (envStub 1) ("ftp://host/pub" ++ "/" ++ file)
                   (rC7.name ++ "_" ++ file)
                   (pathJoin dEmpty.cache_dir rC7.name)).2) :=
  ⟨rfl, rfl, rfl, rfl, by decide, by decide,
   c7_directory_expansion (envStub 1) dEmpty rC7 "ftp://host/pub"
     ["a.txt", "b.zip"] r2C7 rfl rfl rfl rfl (by decide) (by decide)⟩

/-- C10: downloading a directory resource mutates the caller's `Resource` in
place — modelled by `download` returning the caller's resource objects after
the call: the returned object has `is_dir = false` and `url_s` replaced by
the expanded per-file URL list; the original base URL value is not restored. -/
theorem c10_download_mutates_directory_resource
    (env : Env) (d : Downloader) (resource : Resource) (base : String)
    (files : List String) (r2 : Resource)
    (paths : List PyVal) (d' : Downloader) (rs' : List Resource)
    (hdir : resource.is_dir = true)
    (hurl : resource.url_s = .str base)
    (hexp : is_expired env d resource = true)
    (hfiles : get_files env resource = .ok files)
    (hr2 : r2 = { resource with
        url_s := .list (files.map fun file => base ++ "/" ++ file),
        is_dir := false })
    (hok : download env d [resource] = .ok (paths, d', rs')) :
    rs' = [r2]
    ∧ r2.is_dir = false
    ∧ r2.url_s = .list (files.map fun file => base ++ "/" ++ file)
    ∧ r2.url_s ≠ .str base := by
  have hd := dir_fetch_result env d resource base files r2 hdir hurl hexp hfiles hr2
  unfold download at hok
  simp only [downloadLoop] at hok
  rw [hd] at hok
  dsimp only at hok
  have hn : is_nested [PyVal.list (List.map (fun url =>
      (retrieve env url (resource.name ++ "_" ++ afterLastSlash url)
        (pathJoin d.cache_dir resource.name)).1)
      (List.map (fun file => base ++ "/" ++ file) files))] = true := rfl
  rw [if_pos hn] at hok
  injection hok with h
  injection h with h1 h2
  injection h2 with h3 h4
  refine ⟨h4.symm, ?_, ?_, ?_⟩
  · rw [hr2]
  · rw [hr2]
  · rw [hr2]
    simp

/-- Witness for C10 at the concrete two-file ftp directory. -/
theorem c10_witness :
    rC7.is_dir = true
    ∧ rC7.url_s = .str "ftp://host/pub"
    ∧ is_expired (envStub 1) dEmpty rC7 = true
    ∧ get_files (envStub 1) rC7 = .ok ["a.txt", "b.zip"]
    ∧ r2C7 = { rC7 with
        url_s := .list (["a.txt", "b.zip"].map fun file => "ftp://host/pub" ++ "/" ++ file),
        is_dir := false }
    ∧ download (envStub 1) dEmpty [rC7] =
        .ok ([.str "P", .str "P"],
             update_cache_record (envStub 1)
               (update_cache_record (envStub 1) dEmpty r2C7) r2C7,
             [r2C7])
    ∧ ([r2C7] = [r2C7]
       ∧ r2C7.is_dir = false
       ∧ r2C7.url_s = .list (["a.txt", "b.zip"].map fun file => "ftp://host/pub" ++ "/" ++ file)
       ∧ r2C7.url_s ≠ .str "ftp://host/pub") :=
  ⟨rfl, rfl, rfl, rfl, by decide, rfl,
   c10_download_mutates_directory_resource (envStub 1) dEmpty rC7 "ftp://host/pub"
     ["a.txt", "b.zip"] r2C7 [.str "P", .str "P"]
     (update_cache_record (envStub 1) (update_cache_record (envStub 1) dEmpty r2C7) r2C7)
     [r2C7] rfl rfl rfl rfl (by decide) rfl⟩

/-- The collection loop of `download` produces exactly one result per
resource. -/
theorem downloadLoop_length (env : Env) :
    ∀ (rs : List Resource) (d : Downloader) (ps : List PyVal) (d' : Downloader)
      (rs' : List Resource),
      downloadLoop env d rs = .ok (ps, d', rs') → ps.length = rs.length := by
  intro rs
  induction rs with
  | nil =>
    intro d ps d' rs' h
    injection h with h1
    injection h1 with h2 h3
    rw [← h2]
    rfl
  | cons r rest ih =>
    intro d ps d' rs' h
    unfold downloadLoop at h
    split at h
    · exact Except.noConfusion h
    · split at h
      · exact Except.noConfusion h
      · next ps1 d2 rs1 heq =>
        injection h with h1
        injection h1 with h2 h3
        rw [← h2, List.length_cons, List.length_cons, ih _ _ _ _ heq]

/-- Counterexample to C5 as stated: in a batch whose collected results are
the scalar path `"ab"` and the list `["c", "d"]`, the flattening
comprehension iterates the scalar string too, returning its characters
`"a", "b"` inlined — not the scalar `"ab"` passed through as-is. -/
theorem c5_counterexample :
    resultList (download envC5 dEmpty [rC5a, rC5b]) =
      some [PyVal.str "a", PyVal.str "b", PyVal.str "c", PyVal.str "d"]
    ∧ resultList (download envC5 dEmpty [rC5a, rC5b]) ≠
      some [PyVal.str "ab", PyVal.str "c", PyVal.str "d"] := by
  constructor
  · rfl
  · intro hcon
    rw [show resultList (download envC5 dEmpty [rC5a, rC5b]) =
        some [PyVal.str "a", PyVal.str "b", PyVal.str "c", PyVal.str "d"] from rfl] at hcon
    injection hcon with h
    injection h with h1 h2
    injection h1 with h3
    exact absurd h3 (by decide)

/-- C5 as amended: `download` collects exactly one result per resource in
input order; with no nested list among them the collection is returned
unchanged, and with a nested list present the result is the one-level
flattening in which every entry is iterated — list entries contribute their
elements, but scalar string entries contribute their characters as
one-character strings rather than passing through unchanged (and a `None`
entry raises `TypeError`). -/
theorem c5_flatten_iterates_scalars
    (env : Env) (d : Downloader) (resources : List Resource)
    (paths : List PyVal) (d' : Downloader) (rs' : List Resource)
    (hloop : downloadLoop env d resources = .ok (paths, d', rs')) :
    paths.length = resources.length
    ∧ (is_nested paths = false →
        download env d resources = .ok (paths, d', rs'))
    ∧ (is_nested paths = true →
        download env d resources =
          (flattenOnce paths).map fun q => (q, d', rs'))
    ∧ ∀ s, pyIter (PyVal.str s) =
        .ok (s.data.map fun c => PyVal.str (String.mk [c])) := by
  refine ⟨downloadLoop_length env resources d paths d' rs' hloop, ?_, ?_, fun s => rfl⟩
  · intro hnn
    unfold download
    rw [hloop]
    dsimp only
    rw [if_neg (by rw [hnn]; exact Bool.false_ne_true)]
  · intro hn
    unfold download
    rw [hloop]
    dsimp only
    rw [if_pos hn]
    cases hf : flattenOnce paths with
    | error e => rfl
    | ok l => rfl

/-- Witness for the amended C5 on the mixed scalar/list batch. -/
theorem c5_witness :
    downloadLoop envC5 dEmpty [rC5a, rC5b] =
      .ok ([PyVal.str "ab", PyVal.list [.str "c", .str "d"]],
           update_cache_record envC5 (update_cache_record envC5 dEmpty rC5a) rC5b,
           [rC5a, rC5b])
    ∧ ([PyVal.str "ab", PyVal.list [.str "c", .str "d"]].length = [rC5a, rC5b].length
       ∧ (is_nested [PyVal.str "ab", PyVal.list [.str "c", .str "d"]] = false →
           download envC5 dEmpty [rC5a, rC5b] =
             .ok ([PyVal.str "ab", PyVal.list [.str "c", .str "d"]],
                  update_cache_record envC5 (update_cache_record envC5 dEmpty rC5a) rC5b,
                  [rC5a, rC5b]))
       ∧ (is_nested [PyVal.str "ab", PyVal.list [.str "c", .str "d"]] = true →
           download envC5 dEmpty [rC5a, rC5b] =
             (flattenOnce [PyVal.str "ab", PyVal.list [.str "c", .str "d"]]).map
               fun q => (q,
                 update_cache_record envC5 (update_cache_record envC5 dEmpty rC5a) rC5b,
                 [rC5a, rC5b]))
       ∧ ∀ s, pyIter (PyVal.str s) =
           .ok (s.data.map fun c => PyVal.str (String.mk [c]))) :=
  ⟨rfl,
   c5_flatten_iterates_scalars envC5 dEmpty [rC5a, rC5b]
     [PyVal.str "ab", PyVal.list [.str "c", .str "d"]]
     (update_cache_record envC5 (update_cache_record envC5 dEmpty rC5a) rC5b)
     [rC5a, rC5b] rfl⟩
